import Mathlib

/-!
Shallow embedding of the cgraph repository (store.py, observe.py, cli.py)
and verification of the frozen claims about it.

Conventions of the embedding:
* Python strings are Lean `String`s; `PurePosixPath(p).parts` is modelled by
  splitting on slashes and dropping empty and single-dot components, which is
  what pathlib does on relative paths.
* JSON metadata objects are modelled by the record `MetaDict`, holding exactly
  the keys the program reads or writes; a missing key is `none`.  JSON
  encoding itself is out of scope per the specification (section 1), so
  meta.json files hold `MetaDict` values directly.
* The current working copy is the record `FS`: directory existence plus the
  meta.json and content.md artifacts of each context directory.  Directory
  creation and move are the narrow external primitives of the specification.
* Exceptions (CGraphError, SystemExit via fail, and unhandled OSError on a
  missing file read) are modelled by `Except String`.
-/

namespace CGraph

/-- store.ROOT_ID -/
def ROOT_ID : String := "root"

/-- store.ContextRef -/
structure ContextRef where
  type : String
  id : String
deriving DecidableEq

/-- Reference to a parent context, as stored in metadata JSON
(a dict with optional keys type and id). -/
structure PDict where
  type : Option String := none
  id : Option String := none
deriving DecidableEq

/-- A metadata JSON object, restricted to the keys the program touches.
`none` models an absent key (dict.get returning None). -/
structure MetaDict where
  id : Option String := none
  type : Option String := none
  status : Option String := none
  title : Option String := none
  parent : Option PDict := none
  created_at : Option String := none
  updated_at : Option String := none
  archived_at : Option String := none
  merged_at : Option String := none
  latest_summary_id : Option String := none
deriving DecidableEq

/-- Python value.split(sep, 1) combined with the containment test:
returns the pieces before and after the first colon, or none when the
string has no colon. -/
def splitFirstColon : List Char → Option (List Char × List Char)
  | [] => none
  | c :: cs =>
    if c = ':' then some ([], cs)
    else
      match splitFirstColon cs with
      | none => none
      | some (a, b) => some (c :: a, b)

/-- store.parse_parent -/
def parse_parent (value : String) : Except String ContextRef :=
  if value = "root" then .ok ⟨"root", ROOT_ID⟩
  else
    match splitFirstColon value.data with
    | none => .error "Parent must be in the form <type>:<id> or root"
    | some (t, i) =>
      let parent_type : String := ⟨t⟩
      if parent_type ≠ "root" ∧ parent_type ≠ "branch" ∧ parent_type ≠ "summary" then
        .error "Parent type must be root, branch, or summary"
      else if parent_type = "root" then .ok ⟨parent_type, ROOT_ID⟩
      else .ok ⟨parent_type, ⟨i⟩⟩

theorem splitFirstColon_eq_none {l : List Char} (h : ':' ∉ l) :
    splitFirstColon l = none := by
  induction l with
  | nil => rfl
  | cons c cs ih =>
    have hc : ¬ c = ':' := fun hc => h (by simp [hc])
    have hcs : ':' ∉ cs := fun hm => h (List.mem_cons_of_mem c hm)
    simp [splitFirstColon, hc, ih hcs]

theorem splitFirstColon_append (l₁ : List Char) (h : ':' ∉ l₁) (l₂ : List Char) :
    splitFirstColon (l₁ ++ ':' :: l₂) = some (l₁, l₂) := by
  induction l₁ with
  | nil => simp [splitFirstColon]
  | cons c cs ih =>
    have hc : ¬ c = ':' := fun hc => h (by simp [hc])
    have hcs : ':' ∉ cs := fun hm => h (List.mem_cons_of_mem c hm)
    simp [splitFirstColon, hc, ih hcs]

theorem parse_parent_root_colon (t : String) :
    parse_parent ("root:" ++ t) = .ok ⟨"root", "root"⟩ := by
  have hne : ("root:" ++ t) ≠ "root" := by
    intro h
    have hl := congrArg String.length h
    rw [String.length_append] at hl
    have h5 : ("root:" : String).length = 5 := rfl
    have h4 : ("root" : String).length = 4 := rfl
    rw [h5, h4] at hl
    omega
  have hsplit : splitFirstColon ('r' :: 'o' :: 'o' :: 't' :: ':' :: t.data) =
      some (['r', 'o', 'o', 't'], t.data) :=
    splitFirstColon_append ['r', 'o', 'o', 't'] (by decide) t.data
  have hdata : ("root:" ++ t).data = 'r' :: 'o' :: 'o' :: 't' :: ':' :: t.data := rfl
  unfold parse_parent
  rw [if_neg hne, hdata, hsplit]
  rfl

theorem parse_parent_no_colon (v : String) (h1 : v ≠ "root") (h2 : ':' ∉ v.data) :
    ∃ e, parse_parent v = .error e := by
  refine ⟨"Parent must be in the form <type>:<id> or root", ?_⟩
  unfold parse_parent
  rw [if_neg h1, splitFirstColon_eq_none h2]

theorem parse_parent_bad_type (ty rest : String) (hc : ':' ∉ ty.data)
    (h1 : ty ≠ "root") (h2 : ty ≠ "branch") (h3 : ty ≠ "summary") :
    ∃ e, parse_parent (ty ++ ":" ++ rest) = .error e := by
  have hdata : (ty ++ ":" ++ rest).data = ty.data ++ ':' :: rest.data := by
    show (ty.data ++ [':']) ++ rest.data = ty.data ++ ':' :: rest.data
    simp
  have hne : (ty ++ ":" ++ rest) ≠ "root" := by
    intro h
    have hd := congrArg String.data h
    rw [hdata] at hd
    have hmem : ':' ∈ ty.data ++ ':' :: rest.data := by simp
    rw [hd] at hmem
    revert hmem
    decide
  have hsplit := splitFirstColon_append ty.data hc rest.data
  refine ⟨"Parent type must be root, branch, or summary", ?_⟩
  have heta : (⟨ty.data⟩ : String) = ty := rfl
  unfold parse_parent
  rw [if_neg hne, hdata, hsplit]
  show (if ty ≠ "root" ∧ ty ≠ "branch" ∧ ty ≠ "summary" then _ else _) = _
  rw [if_pos ⟨h1, h2, h3⟩]

/-- C10: parse_parent normalizes every root reference to the fixed sentinel
id: the input "root" and every input of the form "root:anything" parse to
the reference (type root, id "root"); any other input without a colon
separator fails, as does any input whose type segment is not one of root,
branch, or summary. -/
theorem parse_parent_normalizes_root :
    parse_parent "root" = .ok ⟨"root", "root"⟩ ∧
    (∀ t, parse_parent ("root:" ++ t) = .ok ⟨"root", "root"⟩) ∧
    (∀ v, v ≠ "root" → ':' ∉ v.data → ∃ e, parse_parent v = .error e) ∧
    (∀ ty rest, ':' ∉ ty.data → ty ≠ "root" → ty ≠ "branch" → ty ≠ "summary" →
      ∃ e, parse_parent (ty ++ ":" ++ rest) = .error e) :=
  ⟨rfl, parse_parent_root_colon, parse_parent_no_colon, parse_parent_bad_type⟩

theorem parse_parent_normalizes_root_witness :
    parse_parent ("root:" ++ "2024-01-02-explore") = .ok ⟨"root", "root"⟩ ∧
    (∃ e, parse_parent "branch" = .error e) ∧
    (∃ e, parse_parent ("tag" ++ ":" ++ "x1") = .error e) :=
  ⟨parse_parent_normalizes_root.2.1 "2024-01-02-explore",
   parse_parent_normalizes_root.2.2.1 "branch" (by decide) (by decide),
   parse_parent_normalizes_root.2.2.2 "tag" "x1" (by decide) (by decide) (by decide)
     (by decide)⟩

/-! ## Graph Observer (observe.py) -/

/-- Decidable equality of results (Python exception/value outcomes). -/
instance {e a : Type} [DecidableEq e] [DecidableEq a] : DecidableEq (Except e a) := fun x y =>
  match x, y with
  | .error u, .error v =>
    if h : u = v then isTrue (by rw [h]) else isFalse (fun hc => by cases hc; exact h rfl)
  | .error _, .ok _ => isFalse (fun hc => by cases hc)
  | .ok _, .error _ => isFalse (fun hc => by cases hc)
  | .ok u, .ok v =>
    if h : u = v then isTrue (by rw [h]) else isFalse (fun hc => by cases hc; exact h rfl)

/-- Python str.endswith, over the character sequence. -/
def strEndsWith (s t : String) : Bool :=
  t.data.isSuffixOf s.data

/-- Python slicing s[:-n] for ASCII paths: drop the last n characters. -/
def strDropRight (s : String) (n : Nat) : String :=
  ⟨s.data.take (s.data.length - n)⟩

/-- str.split("/") over the character sequence. -/
def splitOnSlashAux : List Char → List Char → List (List Char)
  | [], acc => [acc.reverse]
  | c :: cs, acc =>
    if c = '/' then acc.reverse :: splitOnSlashAux cs []
    else splitOnSlashAux cs (c :: acc)

/-- str.split("/"). -/
def splitOnSlash (s : String) : List String :=
  (splitOnSlashAux s.data []).map String.mk

/-- PurePosixPath(path).parts for the relative paths git ls-tree emits:
split on slashes, dropping empty and single-dot components (pathlib
normalizes those away while parsing). -/
def pathParts (path : String) : List String :=
  (splitOnSlash path).filter (fun s => !(s == "") && !(s == "."))

/-- str(PurePosixPath(*parts)): join components with slashes. -/
def joinParts (parts : List String) : String :=
  String.intercalate "/" parts

/-- observe._parse_meta_path: structurally classify a path under the managed
tree; some (location, expected_type, expected_id) at a recognized location
with file name meta.json, none otherwise. -/
def parse_meta_path (path : String) : Option (String × String × String) :=
  match pathParts path with
  | [a, b, c, d] =>
    if a = "memory" ∧ b = "root" ∧ c = ROOT_ID then
      if d = "meta.json" then some (joinParts [a, b, c], "root", ROOT_ID) else none
    else if a = "memory" ∧ b = "branch" then
      if d = "meta.json" then some (joinParts [a, b, c], "branch", c) else none
    else if a = "memory" ∧ b = "summary" then
      if d = "meta.json" then some (joinParts [a, b, c], "summary", c) else none
    else if a = "memory" ∧ b = "canon" then
      if d = "meta.json" then some (joinParts [a, b, c], "summary", c) else none
    else none
  | [a, b, c, d, e] =>
    if a = "memory" ∧ b = "archive" ∧ c = "branch" then
      if e = "meta.json" then some (joinParts [a, b, c, d], "branch", d) else none
    else none
  | _ => none

/-- Result of reading and json-decoding a metadata file from a snapshot
(observe._read_json): decode failure, a non-object JSON value, or an object. -/
inductive MetaJson where
  | invalid
  | notDict
  | obj (m : MetaDict)
deriving DecidableEq

/-- A historical snapshot of the managed tree: the listing returned by
git ls-tree -r (observe side consumes only paths and per-path reads). -/
structure Snapshot where
  paths : List String
  read : String → MetaJson

/-- observe.ObservedContext -/
structure ObservedContext where
  id : String
  type : String
  status : String
  canonical : Bool
  location : String
  parent : Option PDict
  meta : MetaDict
  meta_path : String
  content_path : String
deriving DecidableEq

/-- The sibling content artifact of a metadata file
(observe._content_path body, after its guard). -/
def content_sibling (mp : String) : String :=
  strDropRight mp ("meta.json".length) ++ "content.md"

/-- observe._content_path -/
def content_path_of (mp : String) : Except String String :=
  if strEndsWith mp "/meta.json" then .ok (content_sibling mp)
  else .error ("Invalid meta path: " ++ mp)

/-- One iteration of the collect_contexts loop over a candidate metadata
path: skip (ok none), fail (error), or yield a context (ok some). -/
def observe_one (s : Snapshot) (mp : String) : Except String (Option ObservedContext) :=
  match parse_meta_path mp with
  | none => .ok none
  | some (location, expected_type, expected_id) =>
    match s.read mp with
    | .invalid => .error ("Invalid JSON at " ++ mp)
    | .notDict => .error ("Metadata must be a JSON object at " ++ mp)
    | .obj meta =>
      if meta.id ≠ some expected_id then
        .error ("Meta id mismatch at " ++ mp)
      else if meta.type ≠ some expected_type then
        .error ("Meta type mismatch at " ++ mp)
      else
        match meta.status with
        | none => .error ("Missing status in " ++ mp)
        | some status =>
          match content_path_of mp with
          | .error e => .error e
          | .ok cp =>
            if cp ∈ s.paths then
              .ok (some { id := expected_id, type := expected_type, status := status,
                          canonical := status == "canonical", location := location,
                          parent := meta.parent, meta := meta,
                          meta_path := mp, content_path := cp })
            else .error ("Missing content.md for " ++ location)

/-- The body of the collect_contexts for-loop, accumulating observed
contexts in listing order and propagating the first error. -/
def collect_loop (s : Snapshot) : List String → Except String (List ObservedContext)
  | [] => .ok []
  | p :: rest =>
    match observe_one s p with
    | .error e => .error e
    | .ok none => collect_loop s rest
    | .ok (some c) =>
      match collect_loop s rest with
      | .error e => .error e
      | .ok cs => .ok (c :: cs)

/-- Python string comparison, lexicographic on code points, as list.sort
uses on the location keys. -/
def charListLe : List Char → List Char → Bool
  | [], _ => true
  | _ :: _, [] => false
  | a :: as, b :: bs =>
    if a.toNat = b.toNat then charListLe as bs else decide (a.toNat < b.toNat)

/-- Python string less-or-equal. -/
def strLe (a b : String) : Bool := charListLe a.data b.data

/-- Order used by contexts.sort(key=lambda ctx: ctx.location). -/
def byLocation (a b : ObservedContext) : Prop := strLe a.location b.location = true

instance : DecidableRel byLocation := fun a b =>
  inferInstanceAs (Decidable (strLe a.location b.location = true))

theorem charListLe_total : ∀ x y : List Char,
    charListLe x y = true ∨ charListLe y x = true
  | [], _ => Or.inl rfl
  | _ :: _, [] => Or.inr rfl
  | a :: as, b :: bs => by
    by_cases hab : a.toNat = b.toNat
    · have := charListLe_total as bs
      rcases this with h | h
      · exact Or.inl (by simp [charListLe, hab, h])
      · exact Or.inr (by simp [charListLe, hab.symm, h])
    · by_cases hlt : a.toNat < b.toNat
      · exact Or.inl (by simp [charListLe, hab, hlt])
      · have h1 : ¬ b.toNat = a.toNat := fun h => hab h.symm
        have h2 : b.toNat < a.toNat := by omega
        exact Or.inr (by simp [charListLe, h1, h2])

theorem charListLe_trans : ∀ x y z : List Char,
    charListLe x y = true → charListLe y z = true → charListLe x z = true
  | [], _, _, _, _ => rfl
  | _ :: _, [], _, h, _ => by cases h
  | _ :: _, _ :: _, [], _, h => by cases h
  | a :: as, b :: bs, c :: cs, h1, h2 => by
    simp only [charListLe] at h1 h2 ⊢
    by_cases hab : a.toNat = b.toNat
    · rw [if_pos hab] at h1
      by_cases hbc : b.toNat = c.toNat
      · rw [if_pos hbc] at h2
        rw [if_pos (hab.trans hbc)]
        exact charListLe_trans as bs cs h1 h2
      · rw [if_neg hbc] at h2
        have hb : b.toNat < c.toNat := by simpa using h2
        have hac : ¬ a.toNat = c.toNat := by omega
        rw [if_neg hac]
        simp
        omega
    · rw [if_neg hab] at h1
      have ha : a.toNat < b.toNat := by simpa using h1
      by_cases hbc : b.toNat = c.toNat
      · have hac : ¬ a.toNat = c.toNat := by omega
        rw [if_neg hac]
        simp
        omega
      · rw [if_neg hbc] at h2
        have hb : b.toNat < c.toNat := by simpa using h2
        have hac : ¬ a.toNat = c.toNat := by omega
        rw [if_neg hac]
        simp
        omega

instance : IsTotal ObservedContext byLocation :=
  ⟨fun a b => charListLe_total a.location.data b.location.data⟩

instance : IsTrans ObservedContext byLocation :=
  ⟨fun _ _ _ h h2 => charListLe_trans _ _ _ h h2⟩

/-- observe.collect_contexts -/
def collect_contexts (s : Snapshot) : Except String (List ObservedContext) :=
  match collect_loop s (s.paths.filter (fun p => strEndsWith p "/meta.json")) with
  | .error e => .error e
  | .ok contexts =>
    if contexts.isEmpty then .error "No context metadata found at memory/"
    else .ok (List.insertionSort byLocation contexts)

theorem collect_loop_error_of_mem (s : Snapshot) (l : List String) (p : String)
    (hp : p ∈ l) (he : ∃ e, observe_one s p = .error e) :
    ∃ e, collect_loop s l = .error e := by
  induction l with
  | nil => cases hp
  | cons q rest ih =>
    rcases List.mem_cons.mp hp with rfl | htl
    · obtain ⟨e, he⟩ := he
      exact ⟨e, by simp [collect_loop, he]⟩
    · match hq : observe_one s q with
      | .error e => exact ⟨e, by simp [collect_loop, hq]⟩
      | .ok none =>
        obtain ⟨e, h⟩ := ih htl
        exact ⟨e, by simp [collect_loop, hq, h]⟩
      | .ok (some c) =>
        obtain ⟨e, h⟩ := ih htl
        exact ⟨e, by simp [collect_loop, hq, h]⟩

theorem observe_one_error_of_bad (s : Snapshot) (mp loc ety eid : String) (m : MetaDict)
    (hparse : parse_meta_path mp = some (loc, ety, eid))
    (hread : s.read mp = MetaJson.obj m)
    (hend : strEndsWith mp "/meta.json" = true)
    (hbad : m.id ≠ some eid ∨ m.type ≠ some ety ∨ m.status = none ∨
      content_sibling mp ∉ s.paths) :
    ∃ e, observe_one s mp = .error e := by
  by_cases h1 : m.id = some eid
  · by_cases h2 : m.type = some ety
    · match h3 : m.status with
      | none =>
        exact ⟨"Missing status in " ++ mp,
          by simp [observe_one, hparse, hread, h1, h2, h3]⟩
      | some st =>
        have h4 : content_sibling mp ∉ s.paths := by
          rcases hbad with h | h | h | h
          · exact absurd h1 h
          · exact absurd h2 h
          · rw [h3] at h; cases h
          · exact h
        exact ⟨"Missing content.md for " ++ loc, by simp [observe_one, hparse, hread,
          h1, h2, h3, content_path_of, hend, h4]⟩
    · exact ⟨"Meta type mismatch at " ++ mp, by simp [observe_one, hparse, hread, h1, h2]⟩
  · exact ⟨"Meta id mismatch at " ++ mp, by simp [observe_one, hparse, hread, h1]⟩

/-- C1: during graph reconstruction, any metadata file at a recognized
location whose parsed id or type disagrees with the structural expectation,
whose status is null or absent, or whose sibling content artifact is missing
from the listing, makes the entire observation fail with an error: no
partial list of contexts is returned. -/
theorem collect_contexts_integrity_fatal (s : Snapshot) (mp loc ety eid : String)
    (m : MetaDict)
    (hmem : mp ∈ s.paths) (hend : strEndsWith mp "/meta.json" = true)
    (hparse : parse_meta_path mp = some (loc, ety, eid))
    (hread : s.read mp = MetaJson.obj m)
    (hbad : m.id ≠ some eid ∨ m.type ≠ some ety ∨ m.status = none ∨
      content_sibling mp ∉ s.paths) :
    ∃ e, collect_contexts s = .error e := by
  have hfil : mp ∈ s.paths.filter (fun p => strEndsWith p "/meta.json") :=
    List.mem_filter.mpr ⟨hmem, hend⟩
  obtain ⟨e, hloop⟩ := collect_loop_error_of_mem s _ mp hfil
    (observe_one_error_of_bad s mp loc ety eid m hparse hread hend hbad)
  exact ⟨e, by simp [collect_contexts, hloop]⟩

/-- C4: collect_contexts is a function of the snapshot alone (two reads of
the same snapshot agree), and any successful result is sorted in ascending
order of location path. -/
theorem collect_contexts_deterministic_sorted (s : Snapshot)
    (l₁ l₂ : List ObservedContext)
    (h₁ : collect_contexts s = .ok l₁) (h₂ : collect_contexts s = .ok l₂) :
    l₁ = l₂ ∧ l₁.Pairwise byLocation := by
  have heq : l₁ = l₂ := by
    rw [h₁] at h₂
    exact (Except.ok.inj h₂)
  refine ⟨heq, ?_⟩
  unfold collect_contexts at h₁
  match hl : collect_loop s (s.paths.filter (fun p => strEndsWith p "/meta.json")) with
  | .error e => rw [hl] at h₁; cases h₁
  | .ok contexts =>
    rw [hl] at h₁
    by_cases hne : contexts.isEmpty
    · simp [hne] at h₁
    · simp [hne] at h₁
      rw [← h₁]
      exact List.sorted_insertionSort byLocation contexts

/-- C5: a file path under the managed tree that does not match a recognized
context-location pattern is skipped by the collection loop without raising
an error; and when no path yields a valid context at all, collect_contexts
fails with an error rather than returning an empty list. -/
theorem unrecognized_paths_tolerated_and_empty_fatal (s : Snapshot) (p : String)
    (rest : List String) (hp : parse_meta_path p = none) :
    collect_loop s (p :: rest) = collect_loop s rest ∧
    (collect_loop s (s.paths.filter (fun q => strEndsWith q "/meta.json")) = .ok [] →
      ∃ e, collect_contexts s = .error e) := by
  constructor
  · simp [collect_loop, observe_one, hp]
  · intro h
    exact ⟨"No context metadata found at memory/", by simp [collect_contexts, h]⟩

/-! ### Concrete snapshots used by the observer witnesses -/

/-- Metadata of an initialized root context. -/
def rootMeta : MetaDict :=
  { id := some "root", type := some "root", status := some "canonical",
    title := some "Project X", created_at := some "2024-01-01T00:00:00Z" }

/-- Metadata of an active branch under root. -/
def branchMeta1 : MetaDict :=
  { id := some "b1", type := some "branch", status := some "active",
    title := some "Explore A", created_at := some "2024-01-02T00:00:00Z",
    parent := some ⟨some "root", some "root"⟩ }

/-- A well-formed snapshot: root plus one branch, plus a stray file. -/
def goodSnap : Snapshot :=
  { paths := ["memory/root/root/meta.json", "memory/root/root/content.md",
              "memory/branch/b1/meta.json", "memory/branch/b1/content.md",
              "memory/notes.txt"],
    read := fun p =>
      if p = "memory/root/root/meta.json" then .obj rootMeta
      else if p = "memory/branch/b1/meta.json" then .obj branchMeta1
      else .invalid }

/-- The contexts observed in goodSnap. -/
def goodSnapContexts : List ObservedContext :=
  (collect_contexts goodSnap).toOption.getD []

theorem collect_contexts_deterministic_sorted_witness :
    goodSnapContexts = goodSnapContexts ∧ goodSnapContexts.Pairwise byLocation :=
  collect_contexts_deterministic_sorted goodSnap goodSnapContexts goodSnapContexts
    (by decide) (by decide)

/-- A snapshot whose branch metadata carries the wrong id. -/
def badIdSnap : Snapshot :=
  { paths := ["memory/branch/b1/meta.json", "memory/branch/b1/content.md"],
    read := fun p =>
      if p = "memory/branch/b1/meta.json" then
        .obj { id := some "zz", type := some "branch", status := some "active" }
      else .invalid }

theorem collect_contexts_integrity_fatal_witness :
    ∃ e, collect_contexts badIdSnap = .error e :=
  collect_contexts_integrity_fatal badIdSnap "memory/branch/b1/meta.json"
    "memory/branch/b1" "branch" "b1"
    { id := some "zz", type := some "branch", status := some "active" }
    (by decide) (by decide) (by decide) rfl (Or.inl (by decide))

/-- A snapshot whose only file sits at an unrecognized location. -/
def straySnap : Snapshot :=
  { paths := ["memory/x/y/z/meta.json"], read := fun _ => .invalid }

theorem unrecognized_paths_tolerated_and_empty_fatal_witness :
    collect_loop straySnap ("memory/whatever.txt" :: []) = collect_loop straySnap [] ∧
    (∃ e, collect_contexts straySnap = .error e) :=
  ⟨(unrecognized_paths_tolerated_and_empty_fatal straySnap "memory/whatever.txt" []
      (by decide)).1,
   (unrecognized_paths_tolerated_and_empty_fatal straySnap "memory/whatever.txt" []
      (by decide)).2 (by decide)⟩

/-! ## Context Store (store.py) over the current working copy -/

/-- The working copy as seen through the narrow filesystem interface the
store consumes: directory existence, and the meta.json / content.md
artifacts of a context directory (keyed by the directory path). -/
structure FS where
  dirExists : String → Bool
  metas : String → Option MetaDict
  contents : String → Option String

/-- store.root_dir (relative to the project base). -/
def root_dir : String := "memory/root/root"

/-- store.branch_dir -/
def branch_dir (id : String) : String := "memory/branch/" ++ id

/-- store.archive_branch_dir -/
def archive_branch_dir (id : String) : String := "memory/archive/branch/" ++ id

/-- store.summary_dir -/
def summary_dir (id : String) : String := "memory/summary/" ++ id

/-- store.canon_dir -/
def canon_dir (id : String) : String := "memory/canon/" ++ id

/-- The directories store.ensure_layout creates (including the parents
mkdir(parents=True) creates on the way). -/
def layout_dirs : List String :=
  ["memory", "memory/root", "memory/branch", "memory/summary", "memory/canon",
   "memory/archive", "memory/archive/branch", "memory/_ops", "memory/_ops/handoff"]

/-- store.ensure_layout: idempotently mark every lifecycle-area directory
as existing. -/
def ensure_layout (fs : FS) : FS :=
  { fs with dirExists := fun d => decide (d ∈ layout_dirs) || fs.dirExists d }

/-- store.read_meta: the meta.json of a context directory, or the
missing-file error. -/
def read_meta (fs : FS) (dir : String) : Except String MetaDict :=
  match fs.metas dir with
  | none => .error ("Missing meta.json in " ++ dir)
  | some m => .ok m

/-- content_path(dir).read_text(); a missing file is an (unhandled OSError)
failure, modelled as an error. -/
def read_content (fs : FS) (dir : String) : Except String String :=
  match fs.contents dir with
  | none => .error ("Missing content.md in " ++ dir)
  | some c => .ok c

/-- store.write_meta -/
def write_meta (fs : FS) (dir : String) (m : MetaDict) : FS :=
  { fs with metas := fun d => if d = dir then some m else fs.metas d }

/-- store.write_content -/
def write_content (fs : FS) (dir : String) (c : String) : FS :=
  { fs with contents := fun d => if d = dir then some c else fs.contents d }

/-- store.create_context: mkdir(parents=True, exist_ok=False) raises
FileExistsError when the directory already exists; otherwise create it and
write both artifacts. -/
def create_context (fs : FS) (dir : String) (m : MetaDict) (c : String) :
    Except String FS :=
  if fs.dirExists dir then .error ("Directory already exists: " ++ dir)
  else
    .ok (write_content
          (write_meta { fs with dirExists := fun d => if d = dir then true else fs.dirExists d }
            dir m)
          dir c)

/-- store.move_dir: error when the destination exists, otherwise relocate
the whole context directory. -/
def move_dir (fs : FS) (src dst : String) : Except String FS :=
  if fs.dirExists dst then .error ("Destination already exists: " ++ dst)
  else
    .ok { dirExists := fun d => if d = dst then true else if d = src then false
            else fs.dirExists d,
          metas := fun d => if d = dst then fs.metas src else if d = src then none
            else fs.metas d,
          contents := fun d => if d = dst then fs.contents src else if d = src then none
            else fs.contents d }

/-- store.root_exists: meta.json of the root directory is present. -/
def root_exists (fs : FS) : Bool := (fs.metas root_dir).isSome

/-- store.is_active_summary -/
def is_active_summary (fs : FS) (summary_id : String) : Bool :=
  fs.dirExists (summary_dir summary_id)

/-- store.is_active_branch -/
def is_active_branch (fs : FS) (branch_id : String) : Bool :=
  fs.dirExists (branch_dir branch_id)

/-- The shared tail of store.resolve_parent once the candidate directory is
chosen: existence check, archived check, branch-activity check. -/
def resolve_parent_at (fs : FS) (parent : ContextRef) (path : String) :
    Except String String :=
  if fs.dirExists path then
    match read_meta fs path with
    | .error e => .error e
    | .ok meta =>
      if meta.status = some "archived" then
        .error ("Parent is archived: " ++ parent.type ++ ":" ++ parent.id)
      else if parent.type = "branch" ∧ meta.status ≠ some "active" then
        .error ("Parent branch is not active: " ++ parent.id)
      else .ok path
  else .error ("Parent not found: " ++ parent.type ++ ":" ++ parent.id)

/-- store.resolve_parent -/
def resolve_parent (fs : FS) (parent : ContextRef) : Except String String :=
  if parent.type = "root" then resolve_parent_at fs parent root_dir
  else if parent.type = "branch" then resolve_parent_at fs parent (branch_dir parent.id)
  else if parent.type = "summary" then
    resolve_parent_at fs parent
      (if fs.dirExists (summary_dir parent.id) then summary_dir parent.id
       else canon_dir parent.id)
  else .error ("Unknown parent type " ++ parent.type)

/-- The directory resolve_parent inspects for a known parent kind. -/
def parent_dir_for (fs : FS) (parent : ContextRef) : String :=
  if parent.type = "root" then root_dir
  else if parent.type = "branch" then branch_dir parent.id
  else if fs.dirExists (summary_dir parent.id) then summary_dir parent.id
  else canon_dir parent.id

theorem resolve_parent_at_spec (fs : FS) (parent : ContextRef) (path : String)
    (m : MetaDict) (hex : fs.dirExists path = true) (hm : fs.metas path = some m) :
    resolve_parent_at fs parent path =
      if m.status = some "archived" then
        .error ("Parent is archived: " ++ parent.type ++ ":" ++ parent.id)
      else if parent.type = "branch" ∧ m.status ≠ some "active" then
        .error ("Parent branch is not active: " ++ parent.id)
      else .ok path := by
  simp [resolve_parent_at, read_meta, hex, hm]

theorem resolve_parent_eq_at (fs : FS) (parent : ContextRef)
    (hk : parent.type = "root" ∨ parent.type = "branch" ∨ parent.type = "summary") :
    resolve_parent fs parent = resolve_parent_at fs parent (parent_dir_for fs parent) := by
  rcases hk with hk | hk | hk <;> simp [resolve_parent, parent_dir_for, hk]

/-- C2: resolve_parent rejects a parent whose stored status is archived for
every parent kind, rejects a branch parent whose status is anything other
than active, and otherwise returns the parent directory. -/
theorem resolve_parent_status_checks (fs : FS) (parent : ContextRef) (m : MetaDict)
    (hk : parent.type = "root" ∨ parent.type = "branch" ∨ parent.type = "summary")
    (hex : fs.dirExists (parent_dir_for fs parent) = true)
    (hm : fs.metas (parent_dir_for fs parent) = some m) :
    (m.status = some "archived" → ∃ e, resolve_parent fs parent = .error e) ∧
    (parent.type = "branch" → m.status ≠ some "active" →
      ∃ e, resolve_parent fs parent = .error e) ∧
    (m.status ≠ some "archived" → (parent.type = "branch" → m.status = some "active") →
      resolve_parent fs parent = .ok (parent_dir_for fs parent)) := by
  have hat := resolve_parent_at_spec fs parent (parent_dir_for fs parent) m hex hm
  have heq := resolve_parent_eq_at fs parent hk
  rw [heq, hat]
  refine ⟨?_, ?_, ?_⟩
  · intro hst
    exact ⟨_, by rw [if_pos hst]⟩
  · intro hbr hact
    by_cases hst : m.status = some "archived"
    · exact ⟨_, by rw [if_pos hst]⟩
    · exact ⟨_, by rw [if_neg hst, if_pos ⟨hbr, hact⟩]⟩
  · intro hst hact
    rw [if_neg hst, if_neg (fun hc => hc.2 (hact hc.1))]

/-- C8: create_context fails whenever the target directory already exists,
and otherwise creates the directory and writes both artifacts into it. -/
theorem create_context_spec (fs : FS) (dir : String) (m : MetaDict) (c : String) :
    (fs.dirExists dir = true → ∃ e, create_context fs dir m c = .error e) ∧
    (fs.dirExists dir = false → ∃ fs', create_context fs dir m c = .ok fs' ∧
      fs'.dirExists dir = true ∧ fs'.metas dir = some m ∧ fs'.contents dir = some c) := by
  constructor
  · intro h
    exact ⟨"Directory already exists: " ++ dir, by simp [create_context, h]⟩
  · intro h
    refine ⟨write_content
        (write_meta { fs with dirExists := fun d => if d = dir then true else fs.dirExists d }
          dir m) dir c, ?_, ?_, ?_, ?_⟩
    · simp [create_context, h]
    · simp [write_content, write_meta]
    · simp [write_content, write_meta]
    · simp [write_content, write_meta]


/-! ### Store witnesses and canon appending -/

/-- Metadata of a branch whose stored status is archived. -/
def archivedBranchMeta : MetaDict :=
  { id := some "ab1", type := some "branch", status := some "archived",
    title := some "Old", created_at := some "2024-01-01T00:00:00Z",
    parent := some ⟨some "root", some "root"⟩,
    archived_at := some "2024-01-03T00:00:00Z" }

/-- Metadata of an active summary whose parent is branch b1. -/
def summaryMeta1 : MetaDict :=
  { id := some "s1", type := some "summary", status := some "active",
    title := some "Findings", created_at := some "2024-01-03T00:00:00Z",
    parent := some ⟨some "branch", some "b1"⟩ }

/-- A working copy holding root, an active branch b1, a branch directory
ab1 whose metadata says archived, and an active summary s1 under b1. -/
def fsW : FS :=
  { dirExists := fun d => decide (d ∈ ["memory", "memory/root", "memory/branch",
      "memory/summary", "memory/canon", "memory/archive", "memory/archive/branch",
      "memory/_ops", "memory/_ops/handoff", "memory/root/root", "memory/branch/b1",
      "memory/branch/ab1", "memory/summary/s1"]),
    metas := fun d =>
      if d = root_dir then some rootMeta
      else if d = branch_dir "b1" then some branchMeta1
      else if d = branch_dir "ab1" then some archivedBranchMeta
      else if d = summary_dir "s1" then some summaryMeta1
      else none,
    contents := fun d =>
      if d = root_dir then some "# Project X\n\nCanonical root context.\n"
      else if d = branch_dir "b1" then some "# Explore A\n\nBranch context.\n"
      else if d = branch_dir "ab1" then some "# Old\n\nBranch context.\n"
      else if d = summary_dir "s1" then some "# Findings\n\nSummary content.\n"
      else none }

theorem resolve_parent_status_checks_witness :
    ∃ e, resolve_parent fsW ⟨"branch", "ab1"⟩ = .error e :=
  (resolve_parent_status_checks fsW ⟨"branch", "ab1"⟩ archivedBranchMeta
    (Or.inr (Or.inl rfl)) (by decide) (by decide)).1 (by decide)

theorem create_context_spec_witness :
    (∃ e, create_context fsW (branch_dir "b1") summaryMeta1 "x" = .error e) ∧
    (∃ fs', create_context fsW (branch_dir "nb") summaryMeta1 "x" = .ok fs' ∧
      fs'.dirExists (branch_dir "nb") = true ∧
      fs'.metas (branch_dir "nb") = some summaryMeta1 ∧
      fs'.contents (branch_dir "nb") = some "x") :=
  ⟨(create_context_spec fsW (branch_dir "b1") summaryMeta1 "x").1 (by decide),
   (create_context_spec fsW (branch_dir "nb") summaryMeta1 "x").2 (by decide)⟩

/-- Python str(x) for an optional string (str(None) renders as None). -/
def pyStr : Option String → String
  | some v => v
  | none => "None"

/-- Python str.rstrip(): drop trailing whitespace. -/
def pyRStrip (s : String) : String :=
  ⟨(s.data.reverse.dropWhile Char.isWhitespace).reverse⟩

/-- Python str.strip(): drop leading and trailing whitespace. -/
def pyStrip (s : String) : String :=
  ⟨((s.data.dropWhile Char.isWhitespace).reverse.dropWhile Char.isWhitespace).reverse⟩

/-- store.append_canon, as the pure construction of the new root content
from the prior content, the summary metadata and body, and the merge
timestamp (now_iso is a clock read, passed in as a parameter). -/
def append_canon_text (existing : String) (summary_meta : MetaDict)
    (summary_content : String) (timestamp : String) : String :=
  let branch_id : Option String :=
    match summary_meta.parent with
    | some p => if p.type = some "branch" then p.id else none
    | none => none
  let header : List String :=
    ["---",
     "## Canon Update: " ++ pyStr summary_meta.title,
     "- Summary: " ++ pyStr summary_meta.id,
     "- Merged: " ++ timestamp]
  let header :=
    match branch_id with
    | some b => if b ≠ "" then header ++ ["- Source branch: " ++ b] else header
    | none => header
  let header := header ++ ["---"]
  let block := String.intercalate "\n" header ++ "\n\n" ++ pyStrip summary_content ++ "\n"
  pyRStrip existing ++ "\n\n" ++ block

/-- store.append_canon as a working-copy operation on the root content. -/
def append_canon (fs : FS) (root_path : String) (summary_meta : MetaDict)
    (summary_content : String) (timestamp : String) : Except String FS :=
  match read_content fs root_path with
  | .error e => .error e
  | .ok existing =>
    .ok (write_content fs root_path
          (append_canon_text existing summary_meta summary_content timestamp))

theorem strAppend_assoc (a b c : String) : (a ++ b) ++ c = a ++ (b ++ c) :=
  congrArg String.mk (List.append_assoc a.data b.data c.data)

theorem strAppend_empty (a : String) : a ++ "" = a :=
  congrArg String.mk (List.append_nil a.data)

/-- The optional source-branch line of a canon block: present exactly when
the summary metadata's parent is a branch with a truthy (non-null,
non-empty) id. -/
def source_branch_line (m : MetaDict) : String :=
  match m.parent with
  | some p =>
    if p.type = some "branch" then
      match p.id with
      | some b => if b ≠ "" then "\n" ++ ("- Source branch: " ++ b) else ""
      | none => ""
    else ""
  | none => ""

theorem append_canon_text_eq (existing : String) (m : MetaDict) (c ts : String) :
    append_canon_text existing m c ts =
      pyRStrip existing ++ "\n\n" ++ "---" ++ "\n" ++
      ("## Canon Update: " ++ pyStr m.title) ++ "\n" ++
      ("- Summary: " ++ pyStr m.id) ++ "\n" ++
      ("- Merged: " ++ ts) ++ source_branch_line m ++ "\n" ++ "---" ++
      "\n\n" ++ pyStrip c ++ "\n" := by
  unfold append_canon_text source_branch_line
  match hp : m.parent with
  | none =>
    simp only [String.intercalate, String.intercalate.go, strAppend_assoc, strAppend_empty,
      List.append_eq, List.cons_append, List.nil_append]
  | some p =>
    by_cases hty : p.type = some "branch"
    · match hid : p.id with
      | none =>
        simp only [hty, hid, List.append_eq, List.cons_append, List.nil_append,
          String.intercalate, String.intercalate.go, strAppend_assoc, strAppend_empty,
          if_true, reduceIte]
      | some b =>
        by_cases hb : b = ""
        · simp only [hty, hid, hb, List.append_eq, List.cons_append, List.nil_append,
            String.intercalate, String.intercalate.go, strAppend_assoc, strAppend_empty,
            if_true, reduceIte, ne_eq, not_true_eq_false, if_false]
        · simp only [hty, hid, List.append_eq, List.cons_append, List.nil_append,
            String.intercalate, String.intercalate.go, strAppend_assoc, strAppend_empty,
            if_true, reduceIte, ne_eq, hb, not_false_eq_true]
    · simp only [hty, List.append_eq, List.cons_append, List.nil_append,
        String.intercalate, String.intercalate.go, strAppend_assoc, strAppend_empty,
        if_false, reduceIte]


/-- C3 counterexample: append_canon right-strips the prior root content
before appending (existing.rstrip()), so a prior content ending in a space
is not preserved unchanged as a prefix of the new content. -/
theorem append_canon_not_prefix_preserving :
    ¬ ∃ rest, append_canon_text "A " summaryMeta1 "body" "2024-01-05T00:00:00Z" =
      "A " ++ rest := by
  rintro ⟨rest, h⟩
  have h2 := congrArg (fun v => v.data.take 2) h
  simp only [] at h2
  have hL : (append_canon_text "A " summaryMeta1 "body" "2024-01-05T00:00:00Z").data.take 2 =
      ['A', '\n'] := by decide
  have hR : (("A " ++ rest).data).take 2 = ['A', ' '] := rfl
  rw [hL, hR] at h2
  exact absurd h2 (by decide)

/-- C3 (amended): append_canon never rewrites anything before the prior
root content's trailing whitespace: the new content is the right-stripped
prior content, a blank line, a rule, the header block (title, summary id,
merge timestamp, and the source-branch id when the summary's parent is a
branch with a truthy id), a rule, a blank line, and the summary's body
stripped of surrounding whitespace; when the prior content has no trailing
whitespace it is itself preserved unchanged as a prefix. -/
theorem append_canon_appends (fs : FS) (existing : String) (m : MetaDict) (c ts : String)
    (hex : fs.contents root_dir = some existing) :
    ∃ fs', append_canon fs root_dir m c ts = .ok fs' ∧
      fs'.contents root_dir = some (pyRStrip existing ++ "\n\n" ++ "---" ++ "\n" ++
        ("## Canon Update: " ++ pyStr m.title) ++ "\n" ++
        ("- Summary: " ++ pyStr m.id) ++ "\n" ++
        ("- Merged: " ++ ts) ++ source_branch_line m ++ "\n" ++ "---" ++
        "\n\n" ++ pyStrip c ++ "\n") ∧
      (pyRStrip existing = existing →
        fs'.contents root_dir = some (existing ++ "\n\n" ++ "---" ++ "\n" ++
          ("## Canon Update: " ++ pyStr m.title) ++ "\n" ++
          ("- Summary: " ++ pyStr m.id) ++ "\n" ++
          ("- Merged: " ++ ts) ++ source_branch_line m ++ "\n" ++ "---" ++
          "\n\n" ++ pyStrip c ++ "\n")) ∧
      (∀ q, q ≠ root_dir → fs'.contents q = fs.contents q) ∧
      fs'.metas = fs.metas ∧ fs'.dirExists = fs.dirExists := by
  refine ⟨write_content fs root_dir (append_canon_text existing m c ts),
    ?_, ?_, ?_, ?_, ?_, ?_⟩
  · simp [append_canon, read_content, hex]
  · simp [write_content, append_canon_text_eq]
  · intro h
    simp [write_content, append_canon_text_eq, h]
  · intro q hq
    simp [write_content, hq]
  · rfl
  · rfl

/-- A working copy whose root content carries no trailing whitespace. -/
def fsC : FS :=
  { dirExists := fun d => decide (d = root_dir),
    metas := fun d => if d = root_dir then some rootMeta else none,
    contents := fun d => if d = root_dir then some "# Project X" else none }

theorem append_canon_appends_witness :
    ∃ fs', append_canon fsC root_dir summaryMeta1 " body \n" "TS" = .ok fs' ∧
      fs'.contents root_dir = some (pyRStrip "# Project X" ++ "\n\n" ++ "---" ++ "\n" ++
        ("## Canon Update: " ++ pyStr summaryMeta1.title) ++ "\n" ++
        ("- Summary: " ++ pyStr summaryMeta1.id) ++ "\n" ++
        ("- Merged: " ++ "TS") ++ source_branch_line summaryMeta1 ++ "\n" ++ "---" ++
        "\n\n" ++ pyStrip " body \n" ++ "\n") ∧
      (pyRStrip "# Project X" = "# Project X" →
        fs'.contents root_dir = some ("# Project X" ++ "\n\n" ++ "---" ++ "\n" ++
          ("## Canon Update: " ++ pyStr summaryMeta1.title) ++ "\n" ++
          ("- Summary: " ++ pyStr summaryMeta1.id) ++ "\n" ++
          ("- Merged: " ++ "TS") ++ source_branch_line summaryMeta1 ++ "\n" ++ "---" ++
          "\n\n" ++ pyStrip " body \n" ++ "\n")) ∧
      (∀ q, q ≠ root_dir → fs'.contents q = fsC.contents q) ∧
      fs'.metas = fsC.metas ∧ fs'.dirExists = fsC.dirExists :=
  append_canon_appends fsC "# Project X" summaryMeta1 " body \n" "TS" (by decide)


/-! ### Path distinctness -/

theorem strAppend_ne (p q : String) (i : Nat) (hi : i < p.data.length)
    (hne : p.data[i]? ≠ q.data[i]?) (x : String) : p ++ x ≠ q := by
  intro h
  apply hne
  have hd : p.data ++ x.data = q.data := by
    have h2 := congrArg String.data h
    rwa [String.data_append] at h2
  rw [← hd, List.getElem?_append_left hi]

theorem strAppend_ne_append (p q : String) (hl : p.data.length = q.data.length)
    (hpq : p ≠ q) (x y : String) : p ++ x ≠ q ++ y := by
  intro h
  apply hpq
  have hd : p.data ++ x.data = q.data ++ y.data := by
    have h2 := congrArg String.data h
    rwa [String.data_append, String.data_append] at h2
  exact congrArg String.mk (List.append_inj_left hd hl)

theorem branch_dir_ne_root_dir (a : String) : branch_dir a ≠ root_dir :=
  strAppend_ne "memory/branch/" "memory/root/root" 7 (by decide) (by decide) a

theorem summary_dir_ne_root_dir (a : String) : summary_dir a ≠ root_dir :=
  strAppend_ne "memory/summary/" "memory/root/root" 7 (by decide) (by decide) a

theorem canon_dir_ne_root_dir (a : String) : canon_dir a ≠ root_dir :=
  strAppend_ne "memory/canon/" "memory/root/root" 7 (by decide) (by decide) a

theorem archive_branch_dir_ne_root_dir (a : String) : archive_branch_dir a ≠ root_dir :=
  strAppend_ne "memory/archive/branch/" "memory/root/root" 7 (by decide) (by decide) a

theorem branch_dir_ne_summary_dir (a b : String) : branch_dir a ≠ summary_dir b :=
  strAppend_ne_append "memory/b" "memory/s" (by decide) (by decide)
    ("ranch/" ++ a) ("ummary/" ++ b)

theorem branch_dir_ne_canon_dir (a b : String) : branch_dir a ≠ canon_dir b :=
  strAppend_ne_append "memory/b" "memory/c" (by decide) (by decide)
    ("ranch/" ++ a) ("anon/" ++ b)

theorem branch_dir_ne_archive_branch_dir (a b : String) :
    branch_dir a ≠ archive_branch_dir b :=
  strAppend_ne_append "memory/b" "memory/a" (by decide) (by decide)
    ("ranch/" ++ a) ("rchive/branch/" ++ b)

theorem summary_dir_ne_canon_dir (a b : String) : summary_dir a ≠ canon_dir b :=
  strAppend_ne_append "memory/s" "memory/c" (by decide) (by decide)
    ("ummary/" ++ a) ("anon/" ++ b)

theorem summary_dir_ne_branch_dir (a b : String) : summary_dir a ≠ branch_dir b :=
  strAppend_ne_append "memory/s" "memory/b" (by decide) (by decide)
    ("ummary/" ++ a) ("ranch/" ++ b)

theorem summary_dir_ne_archive_branch_dir (a b : String) :
    summary_dir a ≠ archive_branch_dir b :=
  strAppend_ne_append "memory/s" "memory/a" (by decide) (by decide)
    ("ummary/" ++ a) ("rchive/branch/" ++ b)

theorem canon_dir_ne_summary_dir (a b : String) : canon_dir a ≠ summary_dir b :=
  strAppend_ne_append "memory/c" "memory/s" (by decide) (by decide)
    ("anon/" ++ a) ("ummary/" ++ b)

theorem canon_dir_ne_branch_dir (a b : String) : canon_dir a ≠ branch_dir b :=
  strAppend_ne_append "memory/c" "memory/b" (by decide) (by decide)
    ("anon/" ++ a) ("ranch/" ++ b)

theorem branch_dir_not_in_layout (a : String) : branch_dir a ∉ layout_dirs := by
  intro hmem
  simp only [layout_dirs, List.mem_cons, List.not_mem_nil, or_false] at hmem
  rcases hmem with h | h | h | h | h | h | h | h | h
  · exact strAppend_ne "memory/branch/" "memory" 6 (by decide) (by decide) a h
  · exact strAppend_ne "memory/branch/" "memory/root" 7 (by decide) (by decide) a h
  · exact strAppend_ne "memory/branch/" "memory/branch" 13 (by decide) (by decide) a h
  · exact strAppend_ne "memory/branch/" "memory/summary" 7 (by decide) (by decide) a h
  · exact strAppend_ne "memory/branch/" "memory/canon" 7 (by decide) (by decide) a h
  · exact strAppend_ne "memory/branch/" "memory/archive" 7 (by decide) (by decide) a h
  · exact strAppend_ne "memory/branch/" "memory/archive/branch" 7 (by decide) (by decide) a h
  · exact strAppend_ne "memory/branch/" "memory/_ops" 7 (by decide) (by decide) a h
  · exact strAppend_ne "memory/branch/" "memory/_ops/handoff" 7 (by decide) (by decide) a h

theorem summary_dir_not_in_layout (a : String) : summary_dir a ∉ layout_dirs := by
  intro hmem
  simp only [layout_dirs, List.mem_cons, List.not_mem_nil, or_false] at hmem
  rcases hmem with h | h | h | h | h | h | h | h | h
  · exact strAppend_ne "memory/summary/" "memory" 6 (by decide) (by decide) a h
  · exact strAppend_ne "memory/summary/" "memory/root" 7 (by decide) (by decide) a h
  · exact strAppend_ne "memory/summary/" "memory/branch" 7 (by decide) (by decide) a h
  · exact strAppend_ne "memory/summary/" "memory/summary" 14 (by decide) (by decide) a h
  · exact strAppend_ne "memory/summary/" "memory/canon" 7 (by decide) (by decide) a h
  · exact strAppend_ne "memory/summary/" "memory/archive" 7 (by decide) (by decide) a h
  · exact strAppend_ne "memory/summary/" "memory/archive/branch" 7 (by decide) (by decide) a h
  · exact strAppend_ne "memory/summary/" "memory/_ops" 7 (by decide) (by decide) a h
  · exact strAppend_ne "memory/summary/" "memory/_ops/handoff" 7 (by decide) (by decide) a h

theorem canon_dir_not_in_layout (a : String) : canon_dir a ∉ layout_dirs := by
  intro hmem
  simp only [layout_dirs, List.mem_cons, List.not_mem_nil, or_false] at hmem
  rcases hmem with h | h | h | h | h | h | h | h | h
  · exact strAppend_ne "memory/canon/" "memory" 6 (by decide) (by decide) a h
  · exact strAppend_ne "memory/canon/" "memory/root" 7 (by decide) (by decide) a h
  · exact strAppend_ne "memory/canon/" "memory/branch" 7 (by decide) (by decide) a h
  · exact strAppend_ne "memory/canon/" "memory/summary" 7 (by decide) (by decide) a h
  · exact strAppend_ne "memory/canon/" "memory/canon" 12 (by decide) (by decide) a h
  · exact strAppend_ne "memory/canon/" "memory/archive" 7 (by decide) (by decide) a h
  · exact strAppend_ne "memory/canon/" "memory/archive/branch" 7 (by decide) (by decide) a h
  · exact strAppend_ne "memory/canon/" "memory/_ops" 7 (by decide) (by decide) a h
  · exact strAppend_ne "memory/canon/" "memory/_ops/handoff" 7 (by decide) (by decide) a h

/-! ## Command compositions (cli.py), minus the git and argparse plumbing -/

/-- cli.cmd_branch_archive: load the branch, reject if already archived,
stamp archived status and timestamp, and relocate the directory to the
archive area (now_iso is a clock read, passed as ts). -/
def cmd_branch_archive_core (fs0 : FS) (branch_id ts : String) : Except String FS :=
  if root_exists fs0 = false then .error "root not initialized; run cgraph init"
  else
    let fs := ensure_layout fs0
    if fs.dirExists (branch_dir branch_id) = false then
      .error ("Branch not found: " ++ branch_id)
    else
      match read_meta fs (branch_dir branch_id) with
      | .error e => .error e
      | .ok branch_meta =>
        if branch_meta.status = some "archived" then .error "branch already archived"
        else
          move_dir
            (write_meta fs (branch_dir branch_id)
              { branch_meta with status := some "archived", archived_at := some ts })
            (branch_dir branch_id) (archive_branch_dir branch_id)

/-- cli.cmd_branch_new: parse and resolve the parent reference, then create
the branch context (make_id and now_iso are clock reads, passed as
branch_id and ts). -/
def cmd_branch_new_core (fs0 : FS) (parent_value branch_id title ts : String) :
    Except String FS :=
  if root_exists fs0 = false then .error "root not initialized; run cgraph init"
  else
    let fs := ensure_layout fs0
    match parse_parent parent_value with
    | .error e => .error e
    | .ok parent =>
      match resolve_parent fs parent with
      | .error e => .error e
      | .ok _ =>
        create_context fs (branch_dir branch_id)
          { id := some branch_id, type := some "branch", status := some "active",
            title := some title, created_at := some ts,
            parent := some ⟨some parent.type, some parent.id⟩ }
          ("# " ++ title ++ "\n\nBranch context.\n")

/-- cli.cmd_canon_merge: require an active summary whose parent is a live
branch, append the canon block to root, stamp root and summary metadata,
and relocate the summary from the active to the canonical area (the
second-resolution now_iso clock reads are passed as one ts). -/
def cmd_canon_merge_core (fs0 : FS) (summary_id ts : String) : Except String FS :=
  if root_exists fs0 = false then .error "root not initialized; run cgraph init"
  else
    let fs := ensure_layout fs0
    if is_active_summary fs summary_id = false then
      .error "summary not found or already merged"
    else
      match read_meta fs (summary_dir summary_id) with
      | .error e => .error e
      | .ok summary_meta =>
        match read_content fs (summary_dir summary_id) with
        | .error e => .error e
        | .ok summary_content =>
          if summary_meta.status ≠ some "active" then .error "summary is not active"
          else
            match summary_meta.parent with
            | none => .error "summary parent is not a branch"
            | some parent =>
              if parent.type ≠ some "branch" then .error "summary parent is not a branch"
              else
                match parent.id with
                | none => .error "source branch must be active to merge"
                | some bid =>
                  if bid = "" ∨ is_active_branch fs bid = false then
                    .error "source branch must be active to merge"
                  else
                    if fs.dirExists root_dir = false then .error "Root not initialized"
                    else
                      match read_meta fs root_dir with
                      | .error e => .error e
                      | .ok root_meta =>
                        match read_content fs root_dir with
                        | .error e => .error e
                        | .ok _ =>
                          match append_canon fs root_dir summary_meta summary_content ts with
                          | .error e => .error e
                          | .ok fs1 =>
                            let fs2 := write_meta fs1 root_dir
                              { root_meta with
                                updated_at := some ts
                                latest_summary_id := summary_meta.id }
                            let fs3 := write_meta fs2 (summary_dir summary_id)
                              { summary_meta with
                                status := some "canonical"
                                merged_at := some ts }
                            move_dir fs3 (summary_dir summary_id) (canon_dir summary_id)


/-- C6: a successful canon merge leaves the source branch's directory,
metadata and content entirely unchanged (a branch that reported active
before still reports active), and the summary's content artifact is
byte-for-byte identical across its relocation from the active-summary
area to the canonical-summary area. -/
theorem canon_merge_frame (fs fs' : FS) (sid ts bid : String) (sm : MetaDict) (p : PDict)
    (h : cmd_canon_merge_core fs sid ts = .ok fs')
    (hsm : fs.metas (summary_dir sid) = some sm)
    (hp : sm.parent = some p) (hpid : p.id = some bid) :
    fs'.dirExists (branch_dir bid) = fs.dirExists (branch_dir bid) ∧
    fs'.metas (branch_dir bid) = fs.metas (branch_dir bid) ∧
    fs'.contents (branch_dir bid) = fs.contents (branch_dir bid) ∧
    (∀ bm, fs.metas (branch_dir bid) = some bm → bm.status = some "active" →
      fs'.metas (branch_dir bid) = some bm ∧ bm.status = some "active") ∧
    fs'.contents (canon_dir sid) = fs.contents (summary_dir sid) ∧
    fs'.dirExists (summary_dir sid) = false ∧
    fs'.dirExists (canon_dir sid) = true := by
  simp only [cmd_canon_merge_core] at h
  split at h
  · exact Except.noConfusion h
  split at h
  · exact Except.noConfusion h
  split at h
  · exact Except.noConfusion h
  rename_i summary_meta heqm
  split at h
  · exact Except.noConfusion h
  rename_i summary_content heqc
  split at h
  · exact Except.noConfusion h
  split at h
  · exact Except.noConfusion h
  rename_i parent heqp
  split at h
  · exact Except.noConfusion h
  split at h
  · exact Except.noConfusion h
  rename_i bid' heqpid
  split at h
  · exact Except.noConfusion h
  split at h
  · exact Except.noConfusion h
  split at h
  · exact Except.noConfusion h
  rename_i root_meta heqrm
  split at h
  · exact Except.noConfusion h
  rename_i root_content heqrc
  split at h
  · exact Except.noConfusion h
  rename_i fs1 heqa
  have hsme : summary_meta = sm := by
    simp only [read_meta, ensure_layout] at heqm
    rw [hsm] at heqm
    exact (Except.ok.inj heqm).symm
  subst hsme
  have hpe : parent = p := by
    rw [hp] at heqp
    exact (Option.some.inj heqp).symm
  subst hpe
  have hbide : bid' = bid := by
    rw [hpid] at heqpid
    exact (Option.some.inj heqpid).symm
  subst hbide
  have hfs1 : fs1 = write_content (ensure_layout fs) root_dir
      (append_canon_text root_content summary_meta summary_content ts) := by
    simp only [append_canon] at heqa
    rw [heqrc] at heqa
    exact (Except.ok.inj heqa).symm
  subst hfs1
  simp only [move_dir] at h
  split at h
  · exact Except.noConfusion h
  obtain rfl := (Except.ok.inj h).symm
  have hmetas :
      (write_meta
        (write_meta (write_content (ensure_layout fs) root_dir
          (append_canon_text root_content summary_meta summary_content ts)) root_dir
          { root_meta with updated_at := some ts, latest_summary_id := summary_meta.id })
        (summary_dir sid)
        { summary_meta with status := some "canonical", merged_at := some ts }).metas
        (branch_dir bid') = fs.metas (branch_dir bid') := by
    simp [write_meta, write_content, ensure_layout,
      branch_dir_ne_summary_dir bid' sid, branch_dir_ne_root_dir bid']
  refine ⟨?_, ?_, ?_, ?_, ?_, ?_, ?_⟩
  · simp [write_meta, write_content, ensure_layout,
      branch_dir_ne_canon_dir bid' sid, branch_dir_ne_summary_dir bid' sid,
      branch_dir_not_in_layout bid']
  · dsimp only
    rw [if_neg (branch_dir_ne_canon_dir bid' sid),
      if_neg (branch_dir_ne_summary_dir bid' sid)]
    exact hmetas
  · simp [write_meta, write_content, ensure_layout,
      branch_dir_ne_canon_dir bid' sid, branch_dir_ne_summary_dir bid' sid,
      branch_dir_ne_root_dir bid']
  · intro bm h1 h2
    refine ⟨?_, h2⟩
    dsimp only
    rw [if_neg (branch_dir_ne_canon_dir bid' sid),
      if_neg (branch_dir_ne_summary_dir bid' sid), hmetas]
    exact h1
  · simp [write_meta, write_content, ensure_layout,
      summary_dir_ne_root_dir sid]
  · simp [summary_dir_ne_canon_dir sid sid]
  · simp

/-- The working copy after merging summary s1 in fsW. -/
def fsMergedOut : FS :=
  (cmd_canon_merge_core fsW "s1" "2024-01-08T00:00:00Z").toOption.getD fsW

theorem canon_merge_frame_witness :
    fsMergedOut.dirExists (branch_dir "b1") = fsW.dirExists (branch_dir "b1") ∧
    fsMergedOut.metas (branch_dir "b1") = fsW.metas (branch_dir "b1") ∧
    fsMergedOut.contents (branch_dir "b1") = fsW.contents (branch_dir "b1") ∧
    (∀ bm, fsW.metas (branch_dir "b1") = some bm → bm.status = some "active" →
      fsMergedOut.metas (branch_dir "b1") = some bm ∧ bm.status = some "active") ∧
    fsMergedOut.contents (canon_dir "s1") = fsW.contents (summary_dir "s1") ∧
    fsMergedOut.dirExists (summary_dir "s1") = false ∧
    fsMergedOut.dirExists (canon_dir "s1") = true :=
  canon_merge_frame fsW fsMergedOut "s1" "2024-01-08T00:00:00Z" "b1" summaryMeta1
    ⟨some "branch", some "b1"⟩ rfl (by decide) rfl rfl

/-- C7 counterexample: in a working copy where branch b1 has the active
child summary s1, archiving b1 and then creating a new branch whose parent
reference is summary:s1 succeeds; no InvalidParent error is raised for the
archived ancestor. -/
theorem archived_ancestor_chain_not_checked :
    ((cmd_branch_archive_core fsW "b1" "2024-01-06T00:00:00Z").bind
      (fun fs1 => cmd_branch_new_core fs1 "summary:s1" "2024-01-07-new" "New"
        "2024-01-07T00:00:00Z")).isOk = true := by decide

/-- C7 (amended): archiving a branch leaves its child summary untouched,
and parent resolution inspects only the direct parent: after the archive,
a still-active summary is accepted as a parent (resolve_parent returns its
directory), so branch creation under it does not fail with InvalidParent. -/
theorem resolve_parent_active_summary_ok (g : FS) (sid : String) (sm : MetaDict)
    (h1 : g.metas (summary_dir sid) = some sm)
    (h2 : g.dirExists (summary_dir sid) = true)
    (hst : sm.status = some "active") :
    resolve_parent g ⟨"summary", sid⟩ = .ok (summary_dir sid) := by
  have heq : resolve_parent g ⟨"summary", sid⟩ =
      resolve_parent_at g ⟨"summary", sid⟩ (summary_dir sid) := by
    simp [resolve_parent, h2]
  rw [heq, resolve_parent_at_spec g ⟨"summary", sid⟩ (summary_dir sid) sm h2 h1]
  simp [hst]

/-- C7 (amended): archiving a branch leaves its child summary untouched,
and parent resolution inspects only the direct parent: after the archive,
a still-active summary is accepted as a parent (resolve_parent returns its
directory), so branch creation under it does not fail with InvalidParent. -/
theorem archive_preserves_summary_parenthood (fs fs' : FS) (b sid ts : String)
    (sm : MetaDict)
    (harch : cmd_branch_archive_core fs b ts = .ok fs')
    (hsm : fs.metas (summary_dir sid) = some sm)
    (hst : sm.status = some "active")
    (hdir : fs.dirExists (summary_dir sid) = true) :
    fs'.metas (summary_dir sid) = some sm ∧
    fs'.dirExists (summary_dir sid) = true ∧
    resolve_parent fs' ⟨"summary", sid⟩ = .ok (summary_dir sid) := by
  simp only [cmd_branch_archive_core] at harch
  split at harch
  · exact Except.noConfusion harch
  split at harch
  · exact Except.noConfusion harch
  split at harch
  · exact Except.noConfusion harch
  rename_i branch_meta heqb
  split at harch
  · exact Except.noConfusion harch
  simp only [move_dir] at harch
  split at harch
  · exact Except.noConfusion harch
  have hinj := Except.ok.inj harch
  have hm1 : fs'.metas (summary_dir sid) = some sm := by
    rw [← hinj]
    dsimp only
    rw [if_neg (summary_dir_ne_archive_branch_dir sid b),
      if_neg (summary_dir_ne_branch_dir sid b)]
    simp [write_meta, ensure_layout, summary_dir_ne_branch_dir sid b, hsm]
  have hd1 : fs'.dirExists (summary_dir sid) = true := by
    rw [← hinj]
    dsimp only
    rw [if_neg (summary_dir_ne_archive_branch_dir sid b),
      if_neg (summary_dir_ne_branch_dir sid b)]
    simp [write_meta, ensure_layout, hdir]
  exact ⟨hm1, hd1, resolve_parent_active_summary_ok fs' sid sm hm1 hd1 hst⟩

/-- The working copy after archiving branch b1 in fsW. -/
def fsArchivedOut : FS :=
  (cmd_branch_archive_core fsW "b1" "2024-01-06T00:00:00Z").toOption.getD fsW

theorem archive_preserves_summary_parenthood_witness :
    fsArchivedOut.metas (summary_dir "s1") = some summaryMeta1 ∧
    fsArchivedOut.dirExists (summary_dir "s1") = true ∧
    resolve_parent fsArchivedOut ⟨"summary", "s1"⟩ = .ok (summary_dir "s1") :=
  archive_preserves_summary_parenthood fsW fsArchivedOut "b1" "s1"
    "2024-01-06T00:00:00Z" summaryMeta1 rfl (by decide) rfl (by decide)

/-- C9: for a summary parent reference, resolve_parent falls back from the
active-summary area to the canonical-summary area, and a canonical summary
found there passes every check, so a new branch can be created whose
parent is a merged summary. -/
theorem resolve_parent_canonical_summary (fs : FS) (sid nb title ts : String)
    (m : MetaDict)
    (hact : fs.dirExists (summary_dir sid) = false)
    (hcan : fs.dirExists (canon_dir sid) = true)
    (hm : fs.metas (canon_dir sid) = some m)
    (hst : m.status = some "canonical")
    (hroot : root_exists fs = true)
    (hfresh : fs.dirExists (branch_dir nb) = false) :
    resolve_parent fs ⟨"summary", sid⟩ = .ok (canon_dir sid) ∧
    (cmd_branch_new_core fs ("summary:" ++ sid) nb title ts).isOk = true := by
  have hres : ∀ g : FS, g.dirExists (summary_dir sid) = false →
      g.dirExists (canon_dir sid) = true → g.metas (canon_dir sid) = some m →
      resolve_parent g ⟨"summary", sid⟩ = .ok (canon_dir sid) := by
    intro g h1 h2 h3
    have heq : resolve_parent g ⟨"summary", sid⟩ =
        resolve_parent_at g ⟨"summary", sid⟩ (canon_dir sid) := by
      simp [resolve_parent, h1]
    rw [heq, resolve_parent_at_spec g ⟨"summary", sid⟩ (canon_dir sid) m h2 h3]
    simp [hst]
  refine ⟨hres fs hact hcan hm, ?_⟩
  have hne : ("summary:" ++ sid) ≠ "root" := by
    intro hcontra
    have hl := congrArg String.length hcontra
    rw [String.length_append] at hl
    have h8 : ("summary:" : String).length = 8 := rfl
    have h4 : ("root" : String).length = 4 := rfl
    rw [h8, h4] at hl
    omega
  have hsplit : splitFirstColon (("summary:" ++ sid).data) =
      some ("summary".data, sid.data) := by
    have hdata : ("summary:" ++ sid).data = "summary".data ++ ':' :: sid.data := rfl
    rw [hdata]
    exact splitFirstColon_append "summary".data (by decide) sid.data
  have hparse : parse_parent ("summary:" ++ sid) = .ok ⟨"summary", sid⟩ := by
    unfold parse_parent
    rw [if_neg hne, hsplit]
    rfl
  have hely : (ensure_layout fs).dirExists (summary_dir sid) = false := by
    simp [ensure_layout, summary_dir_not_in_layout sid, hact]
  have hely2 : (ensure_layout fs).dirExists (canon_dir sid) = true := by
    simp [ensure_layout, hcan]
  have hely3 : (ensure_layout fs).metas (canon_dir sid) = some m := hm
  have hb : (ensure_layout fs).dirExists (branch_dir nb) = false := by
    simp [ensure_layout, branch_dir_not_in_layout nb, hfresh]
  simp only [cmd_branch_new_core]
  rw [if_neg (by simp [hroot]), hparse]
  dsimp only
  rw [hres (ensure_layout fs) hely hely2 hely3]
  dsimp only
  simp [create_context, hb, Except.isOk, Except.toBool]

/-- Metadata of summary s1 after its canonical merge. -/
def mergedSummaryMeta : MetaDict :=
  { summaryMeta1 with
    status := some "canonical"
    merged_at := some "2024-01-08T00:00:00Z" }

theorem resolve_parent_canonical_summary_witness :
    resolve_parent fsMergedOut ⟨"summary", "s1"⟩ = .ok (canon_dir "s1") ∧
    (cmd_branch_new_core fsMergedOut ("summary:" ++ "s1") "2024-01-09-next" "Next"
      "2024-01-09T00:00:00Z").isOk = true :=
  resolve_parent_canonical_summary fsMergedOut "s1" "2024-01-09-next" "Next"
    "2024-01-09T00:00:00Z" mergedSummaryMeta (by decide) (by decide) (by decide)
    (by decide) (by decide) (by decide)


end CGraph
